import Mathlib

/-!
Verification of the `untyped` lambda-calculus interpreter.

This file is a shallow embedding of the repository's core:
`untyped/ast.py` (the AST node types and their string rendering),
`untyped/parse.py` (the lexer `tokenize`, the recursive-descent parser
`parse_lambda` / `parse_parentheses` / `parse_apply` / `parse_primal_expr` /
`parse_expr` / `parse_binding` and the entry point `parse`),
`untyped/eval.py` (the substitution engine `alpha_convert` / `unique_ident` /
`ununique_ident` / `apply` and the normalizer `eval`).

Python's unbounded recursion is modelled with an explicit fuel parameter;
fuel exhaustion is a distinct outcome (`fuelOut`) that the real program
cannot produce, and every concrete computation below is run with enough
fuel.  An uncaught `IndexError` (an out-of-range list access) is modelled
as the distinct outcome `crash`; a `ValueError` raised by the lexer is the
`none` result of `tokenize`.
-/

namespace Untyped

/-- The `Identifier` AST node of `ast.py`: a source position and a name.
In the Python source, `Identifier.__eq__` and `__hash__` use `name` alone;
everywhere the source compares identifiers with `==` we compare names. -/
structure Ident where
  file : String
  line : Nat
  col : Nat
  name : String
deriving Repr, DecidableEq

/-- The `Expression` sum type of `ast.py`:
`Identifier | Lambda | Parentheses | Apply`, each node carrying its
`(file, line, col)` source position. -/
inductive Expr where
  | ident (i : Ident)
  | lam (file : String) (line col : Nat) (param : Ident) (body : Expr)
  | paren (file : String) (line col : Nat) (e : Expr)
  | app (file : String) (line col : Nat) (func applicant : Expr)
deriving Repr, DecidableEq

/-- `ASTNode.file` accessor (every node carries its position). -/
def Expr.file : Expr → String
  | .ident i => i.file
  | .lam f _ _ _ _ => f
  | .paren f _ _ _ => f
  | .app f _ _ _ _ => f

/-- `ASTNode.line` accessor. -/
def Expr.line : Expr → Nat
  | .ident i => i.line
  | .lam _ l _ _ _ => l
  | .paren _ l _ _ => l
  | .app _ l _ _ _ => l

/-- `ASTNode.col` accessor. -/
def Expr.col : Expr → Nat
  | .ident i => i.col
  | .lam _ _ c _ _ => c
  | .paren _ _ c _ => c
  | .app _ _ c _ _ => c

/-- Position-free skeleton of an expression: what "structural equality
ignoring source positions" compares (the spec says positions are not part
of structural equality, and `Identifier.__eq__` compares names only). -/
inductive ExprS where
  | ident (name : String)
  | lam (param : String) (body : ExprS)
  | paren (e : ExprS)
  | app (func applicant : ExprS)
deriving Repr, DecidableEq

/-- Erase source positions, keeping the tree shape and identifier names. -/
def Expr.strip : Expr → ExprS
  | .ident i => .ident i.name
  | .lam _ _ _ p b => .lam p.name b.strip
  | .paren _ _ _ e => .paren e.strip
  | .app _ _ _ f a => .app f.strip a.strip

/-- `isinstance(e, Lambda)` test. -/
def Expr.isLam : Expr → Bool
  | .lam _ _ _ _ _ => true
  | _ => false

/-- `Identifier.__str__` / `Lambda.__str__` / `Parentheses.__str__` /
`Apply.__str__` from `ast.py`: the canonical rendering.  `Apply` puts
parentheses around its `func` exactly when `func` is a `Lambda`. -/
def Expr.toStr : Expr → String
  | .ident i => i.name
  | .lam _ _ _ p b => p.name ++ "." ++ b.toStr
  | .paren _ _ _ e => "(" ++ e.toStr ++ ")"
  | .app _ _ _ f a =>
    if f.isLam then "(" ++ f.toStr ++ ") " ++ a.toStr
    else f.toStr ++ " " ++ a.toStr

end Untyped

namespace Untyped

/-- The `TokenType` enum of `parse.py`. -/
inductive TokenType where
  | IDENTIFIER
  | DOT
  | EQUAL
  | R_PAREN
  | L_PAREN
  | LET
  | WHERE
deriving Repr, DecidableEq

/-- `TokenType.name` as Python's `Enum.name`. -/
def TokenType.name : TokenType → String
  | .IDENTIFIER => "IDENTIFIER"
  | .DOT => "DOT"
  | .EQUAL => "EQUAL"
  | .R_PAREN => "R_PAREN"
  | .L_PAREN => "L_PAREN"
  | .LET => "LET"
  | .WHERE => "WHERE"

/-- The `Token` class of `parse.py`. -/
structure Token where
  type : TokenType
  value : String
  file : String
  line : Nat
  col : Nat
deriving Repr, DecidableEq

/-- The `UntypedError` dataclass of `exc.py`: a positioned diagnostic. -/
structure UntypedError where
  message : String
  file : String
  line : Nat
  col : Nat
deriving Repr, DecidableEq

/-- The characters of the source's identifier-start set
`'abcdefghijklmnopqrstuvwxyzABCDEFGHIJKLMNOPQRSTUVWXYZ_'`. -/
def identStartChars : List Char :=
  "abcdefghijklmnopqrstuvwxyzABCDEFGHIJKLMNOPQRSTUVWXYZ_".toList

/-- The characters of the source's identifier-continuation set
`'abcdefghijklmnopqrstuvwxyzABCDEFGHIJKLMNOPQRSTUVWXYZ0123456789_'`. -/
def identContChars : List Char :=
  "abcdefghijklmnopqrstuvwxyzABCDEFGHIJKLMNOPQRSTUVWXYZ0123456789_".toList

/-- Python slice `code[start:stop]` on a character list (clamping, as
Python slices do for nonnegative bounds). -/
def pySlice (code : List Char) (start stop : Nat) : String :=
  String.mk ((code.drop start).take (stop - start))

/-- The inner `while` of the lexer's identifier branch
(`while col < len(code) and code[col] in '...': col += 1; cons += 1`).
Note the source indexes `code` by the COLUMN counter `col`, not by the
consumed-character counter `cons`; we reproduce that exactly.  The fuel
argument only bounds the loop; it is called with more fuel than the loop
can ever use. -/
def identScan (code : List Char) : Nat → Nat → Nat → Nat × Nat
  | 0, col, cons => (col, cons)
  | n+1, col, cons =>
    if col < code.length ∧ (code.getD col ' ') ∈ identContChars then
      identScan code n (col+1) (cons+1)
    else
      (col, cons)

/-- The body of `tokenize`'s `for c in code` loop, one recursive call per
remaining character.  State is `(line, col, cons, acc)` exactly as in the
source: `cons` and `col` are incremented at the top of each iteration, a
newline resets `col` to 0 and bumps `line`, and the multi-character
branches (`let`, `where`, identifiers) advance `col`/`cons` WITHOUT
skipping the following loop iterations — the `for` loop still visits every
character.  `none` models the raised `ValueError` (unexpected character). -/
def tokenizeAux (file : String) (code : List Char) :
    List Char → Nat → Nat → Nat → List Token → Option (List Token)
  | [], _, _, _, acc => some acc
  | c :: rest, line, col, cons, acc =>
    let cons := cons + 1
    let col := col + 1
    if c = '\n' then
      tokenizeAux file code rest (line + 1) 0 cons acc
    else if c = ' ' then
      tokenizeAux file code rest line col cons acc
    else if c = '.' then
      tokenizeAux file code rest line col cons (acc ++ [⟨.DOT, String.mk [c], file, line, col⟩])
    else if c = '=' then
      tokenizeAux file code rest line col cons (acc ++ [⟨.EQUAL, String.mk [c], file, line, col⟩])
    else if c = '(' then
      tokenizeAux file code rest line col cons (acc ++ [⟨.L_PAREN, String.mk [c], file, line, col⟩])
    else if c = ')' then
      tokenizeAux file code rest line col cons (acc ++ [⟨.R_PAREN, String.mk [c], file, line, col⟩])
    else if c = 'l' ∧ pySlice code cons (cons + 2) = "et" then
      tokenizeAux file code rest line (col + 2) (cons + 2) (acc ++ [⟨.LET, "let", file, line, col⟩])
    else if c = 'w' ∧ pySlice code cons (cons + 4) = "here" then
      tokenizeAux file code rest line (col + 4) (cons + 4) (acc ++ [⟨.WHERE, "where", file, line, col⟩])
    else if c ∈ identStartChars then
      let start := cons - 1
      let sc := col
      let scanned := identScan code (code.length + 1) col cons
      tokenizeAux file code rest line scanned.1 scanned.2
        (acc ++ [⟨.IDENTIFIER, pySlice code start scanned.2, file, line, sc⟩])
    else
      none

/-- `tokenize(file, code)` from `parse.py`: initial state
`line, col, cons = 1, 0, 0`.  `none` models the raised `ValueError`. -/
def tokenize (file : String) (code : String) : Option (List Token) :=
  tokenizeAux file code.toList code.toList 1 0 0 []

end Untyped

namespace Untyped

/-- `alpha_convert(expr, old, new)` from `eval.py`: rename free occurrences
of `old` to `new`, not descending into a lambda that rebinds `old`.
Identifier comparison (`==`) is by name.  As in the source, the rebuilt
`Parentheses` node takes its position from its INNER expression `e`. -/
def alpha_convert (expr : Expr) (old new : Ident) : Expr :=
  match expr with
  | .ident i => if i.name = old.name then .ident new else .ident i
  | .lam f l c param body =>
    if param.name = old.name then .lam f l c param body
    else .lam f l c param (alpha_convert body old new)
  | .paren _ _ _ e => .paren e.file e.line e.col (alpha_convert e old new)
  | .app f l c fn a => .app f l c (alpha_convert fn old new) (alpha_convert a old new)

/-- Lookup in the model of the `known: dict[Identifier, int]` mapping;
dict keys hash and compare by identifier NAME (`Identifier.__hash__`). -/
def knownLookup (known : List (String × Nat)) (name : String) : Option Nat :=
  (known.find? (fun p => p.1 = name)).map (·.2)

/-- `unique_ident(expr, known)` from `eval.py`.  The source mutates `known`
(`known[param] += 1` / `known[param] = 0`) but RETURNS immediately in both
branches of the `Lambda` case, and passes `known.copy()` down the
`Parentheses`/`Apply` branches, so no mutation is ever observable by
another call: the function is pure with `known` passed by value.  Note the
`Lambda` case does NOT recurse into the body (beyond the one
`alpha_convert`), and the rebuilt `Parentheses` node takes its position
from its inner expression, exactly as in the source. -/
def unique_ident (known : List (String × Nat)) : Expr → Expr
  | .lam f l c param body =>
    match knownLookup known param.name with
    | some v =>
      let new : Ident := ⟨param.file, param.line, param.col, param.name ++ "$" ++ toString (v + 1)⟩
      .lam f l c new (alpha_convert body param new)
    | none => .lam f l c param body
  | .paren _ _ _ e => .paren e.file e.line e.col (unique_ident known e)
  | .app f l c fn a => .app f l c (unique_ident known fn) (unique_ident known a)
  | .ident i => .ident i

/-- Python's `name.split('$')[0]`: the prefix of `name` before its first
`'$'` (all of `name` when it contains none). -/
def stripDollar (name : String) : String :=
  String.mk (name.toList.takeWhile (fun c => c ≠ '$'))

/-- `ununique_ident(expr)` from `eval.py`: strip the `$N` decoration from
every identifier (`name.split('$')[0]`), including lambda parameters. -/
def ununique_ident : Expr → Expr
  | .ident i => .ident ⟨i.file, i.line, i.col, stripDollar i.name⟩
  | .lam f l c param body =>
    .lam f l c ⟨param.file, param.line, param.col, stripDollar param.name⟩ (ununique_ident body)
  | .paren _ _ _ e => .paren e.file e.line e.col (ununique_ident e)
  | .app f l c fn a => .app f l c (ununique_ident fn) (ununique_ident a)

/-- The inner `_walk` of `apply` in `eval.py`: substitute `applicant` for
every occurrence of `param` (name comparison), not descending into a
lambda whose own parameter has the same name. -/
def applyWalk (param : Ident) (applicant : Expr) : Expr → Expr
  | .ident i => if i.name = param.name then applicant else .ident i
  | .lam f l c p b =>
    if param.name = p.name then .lam f l c p b
    else .lam f l c p (applyWalk param applicant b)
  | .paren _ _ _ e => .paren e.file e.line e.col (applyWalk param applicant e)
  | .app f l c fn a => .app f l c (applyWalk param applicant fn) (applyWalk param applicant a)

/-- `apply(func, applicant)` from `eval.py`: uniquify `func` (with an empty
`known`), substitute the applicant for the parameter in the body, and strip
the `$N` decorations.  The source's precondition is that `func` is a
`Lambda`; `eval` only calls it that way, and on a non-lambda we return the
argument unchanged (the Python would raise an `AttributeError`). -/
def apply (func : Expr) (applicant : Expr) : Expr :=
  match unique_ident [] func with
  | .lam _ _ _ param body => ununique_ident (applyWalk param applicant body)
  | e => e

/-- `eval(expr)` from `eval.py`, with fuel standing for Python's unbounded
recursion: `none` means the fuel ran out (the real program would still be
recursing).  Identifiers and lambdas are normal forms, `Parentheses` is
transparent, and an `Apply` evaluates both operands first, beta-reduces
when the evaluated function is a `Lambda`, and otherwise rebuilds the
`Apply` (a stuck neutral term). -/
def evalF : Nat → Expr → Option Expr
  | 0, _ => none
  | _+1, .ident i => some (.ident i)
  | _+1, .lam f l c p b => some (.lam f l c p b)
  | n+1, .paren _ _ _ e => evalF n e
  | n+1, .app fl ll cl fn a =>
    match evalF n fn, evalF n a with
    | some fn', some a' =>
      match fn' with
      | .lam f l c p b => evalF n (apply (.lam f l c p b) a')
      | _ => some (.app fl ll cl fn' a')
    | _, _ => none
termination_by structural n => n

end Untyped

namespace Untyped

/-- Outcome of a parser combinator on `α`, the model of
`Either[α, UntypedError]` plus the two non-value ways a Python call can
end: `crash` is an uncaught `IndexError` (out-of-range token access) and
`fuelOut` is a modelling artifact (the fuel ran out — the real, unbounded
recursion would still be running). -/
inductive PRes (α : Type) where
  | Ok (v : α)
  | Err (e : UntypedError)
  | crash
  | fuelOut
deriving Repr, DecidableEq

/-- Python `tokens[pos - 1]` as used in `TokenType.expect`: when `pos = 0`
the index is `-1`, which Python wraps to the LAST element (and raises
`IndexError` on an empty list, modelled by `none`). -/
def pyGetPrev (tokens : List Token) (pos : Nat) : Option Token :=
  if pos = 0 then tokens.getLast? else tokens[pos - 1]?

/-- `TokenType.expect(tokens, pos)` from `parse.py`: if `tokens[pos:]` is
empty report `Expected ... but got EOF` at the position of `tokens[pos-1]`
(which raises `IndexError` — `crash` — when that access is out of range);
on a type mismatch report `Expected ... but got ...` at `tokens[pos]`. -/
def TokenType.expect (self : TokenType) (tokens : List Token) (pos : Nat) : PRes Token :=
  match tokens[pos]? with
  | none =>
    match pyGetPrev tokens pos with
    | none => .crash
    | some t =>
      .Err ⟨"Expected " ++ self.name ++ " but got EOF", t.file, t.line, t.col⟩
  | some t =>
    if t.type ≠ self then
      .Err ⟨"Expected " ++ self.name ++ " but got " ++ t.type.name, t.file, t.line, t.col⟩
    else
      .Ok t

/-- The `Binding` AST node of `ast.py`. -/
structure BindingNode where
  file : String
  line : Nat
  col : Nat
  name : Ident
  expr : Expr
deriving Repr, DecidableEq

mutual

/-- `parse_lambda(tokens, pos)` from `parse.py`:
`IDENTIFIER` at `pos`, `DOT` at `pos+1`, then an `Expr` at `pos+2`;
the node takes the position of `tokens[pos]`. -/
def parse_lambda : Nat → List Token → Nat → PRes (Expr × Nat)
  | 0, _, _ => .fuelOut
  | f+1, tokens, pos =>
    match TokenType.IDENTIFIER.expect tokens pos with
    | .crash => .crash
    | .fuelOut => .fuelOut
    | .Err e => .Err e
    | .Ok token =>
      let param : Ident := ⟨token.file, token.line, token.col, token.value⟩
      match TokenType.DOT.expect tokens (pos + 1) with
      | .crash => .crash
      | .fuelOut => .fuelOut
      | .Err e => .Err e
      | .Ok _ =>
        match parse_expr f tokens (pos + 2) with
        | .crash => .crash
        | .fuelOut => .fuelOut
        | .Err e => .Err e
        | .Ok (expr, next) =>
          match tokens[pos]? with
          | none => .crash
          | some tp => .Ok (.lam tp.file tp.line tp.col param expr, next)
termination_by structural f => f

/-- `parse_parentheses(tokens, pos)` from `parse.py`:
`L_PAREN` at `pos`, an `Expr` at `pos+1`, `R_PAREN` at `next`;
the node takes the position of `tokens[pos]`. -/
def parse_parentheses : Nat → List Token → Nat → PRes (Expr × Nat)
  | 0, _, _ => .fuelOut
  | f+1, tokens, pos =>
    match TokenType.L_PAREN.expect tokens pos with
    | .crash => .crash
    | .fuelOut => .fuelOut
    | .Err e => .Err e
    | .Ok _ =>
      match parse_expr f tokens (pos + 1) with
      | .crash => .crash
      | .fuelOut => .fuelOut
      | .Err e => .Err e
      | .Ok (expr, next) =>
        match TokenType.R_PAREN.expect tokens next with
        | .crash => .crash
        | .fuelOut => .fuelOut
        | .Err e => .Err e
        | .Ok _ =>
          match tokens[pos]? with
          | none => .crash
          | some tp => .Ok (.paren tp.file tp.line tp.col expr, next + 1)
termination_by structural f => f

/-- `parse_apply(tokens, pos)` from `parse.py`: parse one `PrimalExpr`,
then enter the `while True` loop (modelled by `parse_apply_loop` with the
`f` first-iteration flag). -/
def parse_apply : Nat → List Token → Nat → PRes (Expr × Nat)
  | 0, _, _ => .fuelOut
  | f+1, tokens, pos =>
    match parse_primal_expr f tokens pos with
    | .crash => .crash
    | .fuelOut => .fuelOut
    | .Err e => .Err e
    | .Ok (func, next) => parse_apply_loop f tokens pos true func next
termination_by structural f => f

/-- The `while True` loop of `parse_apply`: try a further `PrimalExpr` at
`next`; on failure, propagate the error if this is the FIRST iteration
(`first = true`, the source's `f` flag) and otherwise return the
accumulated function; on success left-fold into an `Apply` node positioned
at `tokens[pos]` and continue. -/
def parse_apply_loop : Nat → List Token → Nat → Bool → Expr → Nat → PRes (Expr × Nat)
  | 0, _, _, _, _, _ => .fuelOut
  | f+1, tokens, pos, first, func, next =>
    match parse_primal_expr f tokens next with
    | .crash => .crash
    | .fuelOut => .fuelOut
    | .Err e => if first then .Err e else .Ok (func, next)
    | .Ok (applicant, next2) =>
      match tokens[pos]? with
      | none => .crash
      | some tp =>
        parse_apply_loop f tokens pos false (.app tp.file tp.line tp.col func applicant) next2
termination_by structural f => f

/-- `parse_primal_expr(tokens, pos)` from `parse.py`: try `parse_lambda`,
then `parse_parentheses`, then a bare `IDENTIFIER`, in that order; a failed
alternative consumes nothing and its error is discarded. -/
def parse_primal_expr : Nat → List Token → Nat → PRes (Expr × Nat)
  | 0, _, _ => .fuelOut
  | f+1, tokens, pos =>
    match parse_lambda f tokens pos with
    | .Ok (expr, next) => .Ok (expr, next)
    | .crash => .crash
    | .fuelOut => .fuelOut
    | .Err _ =>
      match parse_parentheses f tokens pos with
      | .Ok (expr, next) => .Ok (expr, next)
      | .crash => .crash
      | .fuelOut => .fuelOut
      | .Err _ =>
        match TokenType.IDENTIFIER.expect tokens pos with
        | .crash => .crash
        | .fuelOut => .fuelOut
        | .Err e => .Err e
        | .Ok token => .Ok (.ident ⟨token.file, token.line, token.col, token.value⟩, pos + 1)
termination_by structural f => f

/-- `parse_expr(tokens, pos)` from `parse.py`: try `parse_apply`, falling
back to `parse_primal_expr` (whose error is the one reported). -/
def parse_expr : Nat → List Token → Nat → PRes (Expr × Nat)
  | 0, _, _ => .fuelOut
  | f+1, tokens, pos =>
    match parse_apply f tokens pos with
    | .Ok (expr, next) => .Ok (expr, next)
    | .crash => .crash
    | .fuelOut => .fuelOut
    | .Err _ =>
      match parse_primal_expr f tokens pos with
      | .Ok (expr, next) => .Ok (expr, next)
      | .crash => .crash
      | .fuelOut => .fuelOut
      | .Err e => .Err e
termination_by structural f => f

end

/-- `parse_binding(tokens, pos)` from `parse.py`, exactly as written:
`LET` is expected at `pos`, then `IDENTIFIER` is expected at `pos` AGAIN
(not `pos+1`), `EQUAL` at `pos+1` and an `Expr` at `pos+2`; the node takes
the position of `tokens[pos]`. -/
def parse_binding (fuel : Nat) (tokens : List Token) (pos : Nat) : PRes (BindingNode × Nat) :=
  match TokenType.LET.expect tokens pos with
  | .crash => .crash
  | .fuelOut => .fuelOut
  | .Err e => .Err e
  | .Ok _ =>
    match TokenType.IDENTIFIER.expect tokens pos with
    | .crash => .crash
    | .fuelOut => .fuelOut
    | .Err e => .Err e
    | .Ok token =>
      let name : Ident := ⟨token.file, token.line, token.col, token.value⟩
      match TokenType.EQUAL.expect tokens (pos + 1) with
      | .crash => .crash
      | .fuelOut => .fuelOut
      | .Err e => .Err e
      | .Ok _ =>
        match parse_expr fuel tokens (pos + 2) with
        | .crash => .crash
        | .fuelOut => .fuelOut
        | .Err e => .Err e
        | .Ok (expr, next) =>
          match tokens[pos]? with
          | none => .crash
          | some tp => .Ok (⟨tp.file, tp.line, tp.col, name, expr⟩, next)

/-- Outcome of the top-level `parse` entry point: a parsed `Expression`, a
`SyntaxError` diagnostic (whose Python message is
`"{message} at line {line} column {col} in {file}"`, kept here as fields),
a `ValueError` raised by `tokenize` (unexpected character), an uncaught
`IndexError`, or fuel exhaustion (a modelling artifact). -/
inductive ParseOutcome where
  | ok (e : Expr)
  | syntaxError (message : String) (file : String) (line col : Nat)
  | valueError
  | indexError
  | fuelOut
deriving Repr, DecidableEq

/-- Fuel that is ample for every input considered in this file. -/
def parseFuel (tokens : List Token) : Nat :=
  10 * tokens.length + 10

/-- `parse(expr, file='<stdin>')` from `parse.py`: tokenize, parse an
`Expr` from position 0, raise a `SyntaxError` on a parse error, raise
`Expected EOF but got ...` if the parse did not consume every token, and
return the expression otherwise. -/
def parse (code : String) (file : String := "<stdin>") : ParseOutcome :=
  match tokenize file code with
  | none => .valueError
  | some tokens =>
    match parse_expr (parseFuel tokens) tokens 0 with
    | .crash => .indexError
    | .fuelOut => .fuelOut
    | .Err e => .syntaxError e.message e.file e.line e.col
    | .Ok (exp, next) =>
      if next ≠ tokens.length then
        match tokens[next]? with
        | none => .indexError
        | some t =>
          .syntaxError ("Expected EOF but got " ++ t.type.name) t.file t.line t.col
      else
        .ok exp

/-- `eval(parse(code))`, position-stripped: the composition the spec's
testable properties are stated about.  `none` when parsing did not return
an expression or evaluation ran out of fuel. -/
def evalParse (code : String) : Option ExprS :=
  match parse code with
  | .ok e => (evalF 1000 e).map Expr.strip
  | _ => none

end Untyped

namespace Untyped

/-!
Normal forms.  `evalF` only ever returns an identifier, a lambda (with an
arbitrary, unevaluated body — `eval` does not descend under binders), or a
stuck application whose head is itself a normal form and not a lambda.
A `Parentheses` node never appears at the top of a result.
-/

/-- The shape of every expression `eval` can return. -/
inductive IsNF : Expr → Prop
  | ident (i : Ident) : IsNF (.ident i)
  | lam (f : String) (l c : Nat) (p : Ident) (b : Expr) : IsNF (.lam f l c p b)
  | app (f : String) (l c : Nat) {fn a : Expr} :
      IsNF fn → IsNF a → fn.isLam = false → IsNF (.app f l c fn a)

/-- Whatever `evalF` returns is a normal form in the sense of `IsNF`. -/
theorem evalF_isNF : ∀ (n : Nat) (e r : Expr), evalF n e = some r → IsNF r := by
  intro n
  induction n with
  | zero => intro e r h; simp [evalF] at h
  | succ n ih =>
    intro e r h
    match e with
    | .ident i =>
      simp only [evalF, Option.some.injEq] at h
      exact h ▸ IsNF.ident i
    | .lam f l c p b =>
      simp only [evalF, Option.some.injEq] at h
      exact h ▸ IsNF.lam f l c p b
    | .paren f l c e' =>
      exact ih e' r h
    | .app fl ll cl fn a =>
      simp only [evalF] at h
      cases hf : evalF n fn with
      | none => rw [hf] at h; cases h
      | some fn' =>
        cases ha : evalF n a with
        | none => rw [hf, ha] at h; cases h
        | some a' =>
          rw [hf, ha] at h
          cases fn' with
          | lam f l c p b => exact ih _ r h
          | ident i =>
            simp only [Option.some.injEq] at h
            exact h ▸ IsNF.app fl ll cl (ih _ _ hf) (ih _ _ ha) rfl
          | paren f l c e' =>
            simp only [Option.some.injEq] at h
            exact h ▸ IsNF.app fl ll cl (ih _ _ hf) (ih _ _ ha) rfl
          | app f l c fn2 a2 =>
            simp only [Option.some.injEq] at h
            exact h ▸ IsNF.app fl ll cl (ih _ _ hf) (ih _ _ ha) rfl

/-- Adding fuel never changes a result `eval` already produced. -/
theorem evalF_mono : ∀ (n : Nat) (e r : Expr), evalF n e = some r → evalF (n+1) e = some r := by
  intro n
  induction n with
  | zero => intro e r h; simp [evalF] at h
  | succ n ih =>
    intro e r h
    match e with
    | .ident i => exact h
    | .lam f l c p b => exact h
    | .paren f l c e' => exact ih e' r h
    | .app fl ll cl fn a =>
      simp only [evalF] at h ⊢
      cases hf : evalF n fn with
      | none => rw [hf] at h; cases h
      | some fn' =>
        cases ha : evalF n a with
        | none => rw [hf, ha] at h; cases h
        | some a' =>
          rw [hf, ha] at h
          rw [ih _ _ hf, ih _ _ ha]
          cases fn' with
          | lam f l c p b => exact ih _ r h
          | ident i => exact h
          | paren f l c e' => exact h
          | app f l c fn2 a2 => exact h

/-- `evalF_mono`, iterated. -/
theorem evalF_mono_le {n m : Nat} (hle : n ≤ m) {e r : Expr} (h : evalF n e = some r) :
    evalF m e = some r := by
  induction m with
  | zero => exact (Nat.le_zero.mp hle) ▸ h
  | succ m ih =>
    rcases Nat.lt_or_ge n (m+1) with hlt | hge
    · exact evalF_mono m e r (ih (Nat.lt_succ_iff.mp hlt))
    · exact (Nat.le_antisymm hle hge) ▸ h

/-- Every normal form is a fixed point of `eval` (with exactly the same
positions, hence in particular up to positions). -/
theorem isNF_evalF_fix : ∀ (r : Expr), IsNF r → ∃ m, evalF m r = some r := by
  intro r h
  induction h with
  | ident i => exact ⟨1, rfl⟩
  | lam f l c p b => exact ⟨1, rfl⟩
  | @app f l c fn a _ _ hnl ihf iha =>
    obtain ⟨m1, h1⟩ := ihf
    obtain ⟨m2, h2⟩ := iha
    refine ⟨max m1 m2 + 1, ?_⟩
    have h1m : evalF (max m1 m2) fn = some fn := evalF_mono_le (Nat.le_max_left m1 m2) h1
    have h2m : evalF (max m1 m2) a = some a := evalF_mono_le (Nat.le_max_right m1 m2) h2
    simp only [evalF, h1m, h2m]
    cases fn with
    | lam f2 l2 c2 p2 b2 => simp [Expr.isLam] at hnl
    | ident i => rfl
    | paren f2 l2 c2 e2 => rfl
    | app f2 l2 c2 fn2 a2 => rfl

end Untyped

namespace Untyped

/-- Adding fuel never changes a settled (non-`fuelOut`) result of any of
the six parser combinators.  Stated as one conjunction over the mutual
family and proved by induction on the fuel. -/
theorem parser_fuel_mono : ∀ f : Nat,
    (∀ tokens pos r, r ≠ PRes.fuelOut →
      parse_lambda f tokens pos = r → parse_lambda (f+1) tokens pos = r) ∧
    (∀ tokens pos r, r ≠ PRes.fuelOut →
      parse_parentheses f tokens pos = r → parse_parentheses (f+1) tokens pos = r) ∧
    (∀ tokens pos r, r ≠ PRes.fuelOut →
      parse_apply f tokens pos = r → parse_apply (f+1) tokens pos = r) ∧
    (∀ tokens pos first func next r, r ≠ PRes.fuelOut →
      parse_apply_loop f tokens pos first func next = r →
      parse_apply_loop (f+1) tokens pos first func next = r) ∧
    (∀ tokens pos r, r ≠ PRes.fuelOut →
      parse_primal_expr f tokens pos = r → parse_primal_expr (f+1) tokens pos = r) ∧
    (∀ tokens pos r, r ≠ PRes.fuelOut →
      parse_expr f tokens pos = r → parse_expr (f+1) tokens pos = r) := by
  intro f
  induction f with
  | zero =>
    refine ⟨?_, ?_, ?_, ?_, ?_, ?_⟩
    · intro tokens pos r hr h; simp only [parse_lambda] at h; exact absurd h.symm hr
    · intro tokens pos r hr h; simp only [parse_parentheses] at h; exact absurd h.symm hr
    · intro tokens pos r hr h; simp only [parse_apply] at h; exact absurd h.symm hr
    · intro tokens pos first func next r hr h
      simp only [parse_apply_loop] at h; exact absurd h.symm hr
    · intro tokens pos r hr h; simp only [parse_primal_expr] at h; exact absurd h.symm hr
    · intro tokens pos r hr h; simp only [parse_expr] at h; exact absurd h.symm hr
  | succ f ih =>
    obtain ⟨ihLam, ihPar, ihApp, ihLoop, ihPrim, ihExpr⟩ := ih
    refine ⟨?_, ?_, ?_, ?_, ?_, ?_⟩
    · -- parse_lambda
      intro tokens pos r hr h
      simp only [parse_lambda] at h ⊢
      cases hE1 : TokenType.IDENTIFIER.expect tokens pos with
      | crash => simp only [hE1] at h ⊢; exact h
      | fuelOut => simp only [hE1] at h ⊢; exact h
      | Err e => simp only [hE1] at h ⊢; exact h
      | Ok token =>
        simp only [hE1] at h ⊢
        cases hE2 : TokenType.DOT.expect tokens (pos+1) with
        | crash => simp only [hE2] at h ⊢; exact h
        | fuelOut => simp only [hE2] at h ⊢; exact h
        | Err e => simp only [hE2] at h ⊢; exact h
        | Ok tok2 =>
          simp only [hE2] at h ⊢
          cases hX : parse_expr f tokens (pos+2) with
          | fuelOut => simp only [hX] at h; exact absurd h.symm hr
          | crash =>
            simp only [hX] at h
            simp only [ihExpr tokens (pos+2) _ (by simp) hX]
            exact h
          | Err e =>
            simp only [hX] at h
            simp only [ihExpr tokens (pos+2) _ (by simp) hX]
            exact h
          | Ok p =>
            simp only [hX] at h
            simp only [ihExpr tokens (pos+2) _ (by simp) hX]
            exact h
    · -- parse_parentheses
      intro tokens pos r hr h
      simp only [parse_parentheses] at h ⊢
      cases hE1 : TokenType.L_PAREN.expect tokens pos with
      | crash => simp only [hE1] at h ⊢; exact h
      | fuelOut => simp only [hE1] at h ⊢; exact h
      | Err e => simp only [hE1] at h ⊢; exact h
      | Ok token =>
        simp only [hE1] at h ⊢
        cases hX : parse_expr f tokens (pos+1) with
        | fuelOut => simp only [hX] at h; exact absurd h.symm hr
        | crash =>
          simp only [hX] at h
          simp only [ihExpr tokens (pos+1) _ (by simp) hX]
          exact h
        | Err e =>
          simp only [hX] at h
          simp only [ihExpr tokens (pos+1) _ (by simp) hX]
          exact h
        | Ok p =>
          simp only [hX] at h
          simp only [ihExpr tokens (pos+1) _ (by simp) hX]
          exact h
    · -- parse_apply
      intro tokens pos r hr h
      simp only [parse_apply] at h ⊢
      cases hX : parse_primal_expr f tokens pos with
      | fuelOut => simp only [hX] at h; exact absurd h.symm hr
      | crash =>
        simp only [hX] at h
        simp only [ihPrim tokens pos _ (by simp) hX]
        exact h
      | Err e =>
        simp only [hX] at h
        simp only [ihPrim tokens pos _ (by simp) hX]
        exact h
      | Ok p =>
        obtain ⟨func, next⟩ := p
        simp only [hX] at h
        simp only [ihPrim tokens pos _ (by simp) hX]
        exact ihLoop tokens pos true func next r hr h
    · -- parse_apply_loop
      intro tokens pos first func next r hr h
      rw [parse_apply_loop] at h ⊢
      cases hX : parse_primal_expr f tokens next with
      | fuelOut => simp only [hX] at h; exact absurd h.symm hr
      | crash =>
        simp only [hX] at h
        simp only [ihPrim tokens next _ (by simp) hX]
        exact h
      | Err e =>
        simp only [hX] at h
        simp only [ihPrim tokens next _ (by simp) hX]
        exact h
      | Ok p =>
        obtain ⟨applicant, next2⟩ := p
        simp only [hX] at h
        simp only [ihPrim tokens next _ (by simp) hX]
        cases hT : tokens[pos]? with
        | none => simp only [hT] at h ⊢; exact h
        | some tp =>
          simp only [hT] at h ⊢
          exact ihLoop tokens pos false _ next2 r hr h
    · -- parse_primal_expr
      intro tokens pos r hr h
      simp only [parse_primal_expr] at h ⊢
      cases hL : parse_lambda f tokens pos with
      | fuelOut => simp only [hL] at h; exact absurd h.symm hr
      | crash =>
        simp only [hL] at h
        simp only [ihLam tokens pos _ (by simp) hL]
        exact h
      | Ok p =>
        obtain ⟨expr, next⟩ := p
        simp only [hL] at h
        simp only [ihLam tokens pos _ (by simp) hL]
        exact h
      | Err e =>
        simp only [hL] at h
        simp only [ihLam tokens pos _ (by simp) hL]
        cases hP : parse_parentheses f tokens pos with
        | fuelOut => simp only [hP] at h; exact absurd h.symm hr
        | crash =>
          simp only [hP] at h
          simp only [ihPar tokens pos _ (by simp) hP]
          exact h
        | Ok p =>
          obtain ⟨expr, next⟩ := p
          simp only [hP] at h
          simp only [ihPar tokens pos _ (by simp) hP]
          exact h
        | Err e2 =>
          simp only [hP] at h
          simp only [ihPar tokens pos _ (by simp) hP]
          exact h
    · -- parse_expr
      intro tokens pos r hr h
      simp only [parse_expr] at h ⊢
      cases hA : parse_apply f tokens pos with
      | fuelOut => simp only [hA] at h; exact absurd h.symm hr
      | crash =>
        simp only [hA] at h
        simp only [ihApp tokens pos _ (by simp) hA]
        exact h
      | Ok p =>
        obtain ⟨expr, next⟩ := p
        simp only [hA] at h
        simp only [ihApp tokens pos _ (by simp) hA]
        exact h
      | Err e =>
        simp only [hA] at h
        simp only [ihApp tokens pos _ (by simp) hA]
        cases hX : parse_primal_expr f tokens pos with
        | fuelOut => simp only [hX] at h; exact absurd h.symm hr
        | crash =>
          simp only [hX] at h
          simp only [ihPrim tokens pos _ (by simp) hX]
          exact h
        | Ok p =>
          obtain ⟨expr, next⟩ := p
          simp only [hX] at h
          simp only [ihPrim tokens pos _ (by simp) hX]
          exact h
        | Err e2 =>
          simp only [hX] at h
          simp only [ihPrim tokens pos _ (by simp) hX]
          exact h

end Untyped

namespace Untyped

/-- Claim C1: the claim states that beta reduction is capture-avoiding and
that evaluating `(x.(y.x)) y` must NOT produce the lambda `y.y`.  The code
violates this: `unique_ident` starts from an empty `known` mapping and
never recurses into a lambda body, so no renaming ever happens, and the
free `y` of the applicant IS captured by the inner binder.  This theorem
evaluates the code at the failing input: `eval(parse("(x.(y.x)) y"))` is
exactly the lambda `y.y`, and `apply` on the parsed function and argument
returns `(y.y)` (up to positions). -/
theorem c1_eval_captures_free_variable :
    evalParse "(x.(y.x)) y" = some (.lam "y" (.ident "y")) ∧
    (apply
      (.lam "<stdin>" 1 2 ⟨"<stdin>", 1, 2, "x"⟩
        (.paren "<stdin>" 1 4
          (.lam "<stdin>" 1 5 ⟨"<stdin>", 1, 5, "y"⟩ (.ident ⟨"<stdin>", 1, 7, "x"⟩))))
      (.ident ⟨"<stdin>", 1, 11, "y"⟩)).strip
      = .paren (.lam "y" (.ident "y")) :=
  ⟨rfl, rfl⟩

/-- Claim C2: the claim states that a source text that is a single
identifier (including multi-character ones such as `ab`) tokenizes to
exactly one `IDENTIFIER` token carrying the whole text.  The code violates
this: the `for` loop does not skip the characters consumed by the
identifier scan, so `tokenize("ab")` produces a second, spurious
`IDENTIFIER` token with an empty literal. -/
theorem c2_tokenize_splits_multichar_identifier :
    tokenize "<stdin>" "ab" =
      some [⟨.IDENTIFIER, "ab", "<stdin>", 1, 1⟩, ⟨.IDENTIFIER, "", "<stdin>", 1, 3⟩] ∧
    (tokenize "<stdin>" "ab").map List.length ≠ some 1 :=
  ⟨rfl, by decide⟩

/-- Claim C3: the claim states the re-print round-trip `parse(str(e)) = e`
(up to parenthesization) for every parse-producible `e`.  The code violates
it: `parse("ab")` is the tree `Apply(Identifier "ab", Identifier "")`
(because of the lexer bug of C2), its rendering is the string `"ab "`, and
re-parsing that yields `Apply(Identifier "ab", Identifier " ")` — not
structurally equal (the applicant's name differs: `""` vs `" "`). -/
theorem c3_reprint_roundtrip_fails :
    parse "ab" =
      .ok (.app "<stdin>" 1 1 (.ident ⟨"<stdin>", 1, 1, "ab"⟩) (.ident ⟨"<stdin>", 1, 3, ""⟩)) ∧
    (Expr.app "<stdin>" 1 1 (.ident ⟨"<stdin>", 1, 1, "ab"⟩)
      (.ident ⟨"<stdin>", 1, 3, ""⟩)).toStr = "ab " ∧
    parse "ab " =
      .ok (.app "<stdin>" 1 1 (.ident ⟨"<stdin>", 1, 1, "ab"⟩) (.ident ⟨"<stdin>", 1, 3, " "⟩)) ∧
    (Expr.app "<stdin>" 1 1 (.ident ⟨"<stdin>", 1, 1, "ab"⟩)
      (.ident ⟨"<stdin>", 1, 3, ""⟩)).strip ≠
      (Expr.app "<stdin>" 1 1 (.ident ⟨"<stdin>", 1, 1, "ab"⟩)
        (.ident ⟨"<stdin>", 1, 3, " "⟩)).strip :=
  ⟨rfl, rfl, rfl, by decide⟩

/-- Claim C4: beta reduction correctness on closed redexes:
`eval(parse("(x.x) a"))` yields `Identifier("a")` and
`eval(parse("(x.y.x) a b"))` yields `Identifier("a")`. -/
theorem c4_beta_reduction_correct :
    evalParse "(x.x) a" = some (.ident "a") ∧
    evalParse "(x.y.x) a b" = some (.ident "a") :=
  ⟨rfl, rfl⟩

/-- Claim C5: stuck term preservation: `eval(parse("f a"))` with `f` and
`a` free yields the application `Apply(Identifier "f", Identifier "a")`
unchanged, and in general, whenever both operands of an `Apply` evaluate
and the evaluated function part is not a `Lambda`, `eval` returns the
`Apply` of the two evaluated operands (no beta step). -/
theorem c5_stuck_term_preserved :
    evalParse "f a" = some (.app (.ident "f") (.ident "a")) ∧
    ∀ (n : Nat) (fl : String) (ll cl : Nat) (fn a fn' a' : Expr),
      evalF n fn = some fn' → evalF n a = some a' → fn'.isLam = false →
      evalF (n+1) (.app fl ll cl fn a) = some (.app fl ll cl fn' a') := by
  refine ⟨rfl, ?_⟩
  intro n fl ll cl fn a fn' a' hf ha hl
  simp only [evalF, hf, ha]
  cases fn' with
  | lam f2 l2 c2 p2 b2 => simp [Expr.isLam] at hl
  | ident i => rfl
  | paren f2 l2 c2 e2 => rfl
  | app f2 l2 c2 fn2 a2 => rfl

/-- Witness for C5's general part at a concrete stuck application. -/
theorem c5_stuck_term_preserved_witness :
    evalF 2 (.app "w" 1 1 (.ident ⟨"w", 1, 1, "f"⟩) (.ident ⟨"w", 1, 3, "a"⟩)) =
      some (.app "w" 1 1 (.ident ⟨"w", 1, 1, "f"⟩) (.ident ⟨"w", 1, 3, "a"⟩)) :=
  c5_stuck_term_preserved.2 1 "w" 1 1 _ _ _ _ rfl rfl rfl

/-- Claim C6, counterexample: the claim states that when `parse_apply`
parses one `PrimalExpr` and no additional applicant parses, it returns the
single `PrimalExpr` as a SUCCESS.  On the single-token input `x`, one
`PrimalExpr` parses (the identifier, to position 1) and no applicant
parses at position 1, yet `parse_apply` returns the inner FAILURE (the
source's `f` flag propagates the first loop iteration's error), not the
success the claim demands. -/
theorem c6_parse_apply_returns_error_not_primal :
    parse_primal_expr 39 [⟨.IDENTIFIER, "x", "f", 1, 1⟩] 0 = .Ok (.ident ⟨"f", 1, 1, "x"⟩, 1) ∧
    parse_primal_expr 38 [⟨.IDENTIFIER, "x", "f", 1, 1⟩] 1 =
      .Err ⟨"Expected IDENTIFIER but got EOF", "f", 1, 1⟩ ∧
    parse_apply 40 [⟨.IDENTIFIER, "x", "f", 1, 1⟩] 0 =
      .Err ⟨"Expected IDENTIFIER but got EOF", "f", 1, 1⟩ ∧
    parse_apply 40 [⟨.IDENTIFIER, "x", "f", 1, 1⟩] 0 ≠ .Ok (.ident ⟨"f", 1, 1, "x"⟩, 1) :=
  ⟨rfl, rfl, rfl, by decide⟩

/-- Claim C6, amended: when `parse_apply` parses one `PrimalExpr` and not
even one additional applicant parses at the following position,
`parse_apply` itself propagates that failure as an error, and it is the
enclosing `parse_expr` that then returns the single already-parsed
`PrimalExpr` unchanged, with its next position, as a success (not wrapped
in `Apply`). -/
theorem c6_apply_error_expr_falls_back :
    ∀ (f : Nat) (tokens : List Token) (pos : Nat) (e : Expr) (next : Nat) (err : UntypedError),
      parse_primal_expr f tokens pos = .Ok (e, next) →
      parse_primal_expr f tokens next = .Err err →
      parse_apply (f+2) tokens pos = .Err err ∧
      parse_expr (f+3) tokens pos = .Ok (e, next) := by
  intro f tokens pos e next err h1 h2
  have h1a : parse_primal_expr (f+1) tokens pos = .Ok (e, next) :=
    (parser_fuel_mono f).2.2.2.2.1 tokens pos _ (by simp) h1
  have h1b : parse_primal_expr (f+2) tokens pos = .Ok (e, next) :=
    (parser_fuel_mono (f+1)).2.2.2.2.1 tokens pos _ (by simp) h1a
  have happ : parse_apply (f+2) tokens pos = .Err err := by
    simp only [parse_apply, h1a]
    rw [parse_apply_loop]
    simp only [h2, if_true]
  refine ⟨happ, ?_⟩
  simp only [parse_expr, happ, h1b]

/-- Witness for C6's amended claim on the single-token input `x`. -/
theorem c6_apply_error_expr_falls_back_witness :
    parse_apply 40 [⟨.IDENTIFIER, "x", "f", 1, 1⟩] 0 =
      .Err ⟨"Expected IDENTIFIER but got EOF", "f", 1, 1⟩ ∧
    parse_expr 41 [⟨.IDENTIFIER, "x", "f", 1, 1⟩] 0 = .Ok (.ident ⟨"f", 1, 1, "x"⟩, 1) :=
  c6_apply_error_expr_falls_back 38 [⟨.IDENTIFIER, "x", "f", 1, 1⟩] 0
    (.ident ⟨"f", 1, 1, "x"⟩) 1 ⟨"Expected IDENTIFIER but got EOF", "f", 1, 1⟩ rfl rfl

/-- Claim C7: the claim states that on a token list `LET IDENTIFIER EQUAL
<expr-tokens>` `parse_binding` succeeds with the corresponding `Binding`
node.  The code violates this: after expecting `LET` at `pos` it expects
`IDENTIFIER` at `pos` AGAIN (instead of `pos+1`), so on the well-formed
binding `let x = y` it always fails with
`Expected IDENTIFIER but got LET`. -/
theorem c7_parse_binding_rejects_wellformed_binding :
    parse_binding 40
      [⟨.LET, "let", "f", 1, 1⟩, ⟨.IDENTIFIER, "x", "f", 1, 5⟩,
       ⟨.EQUAL, "=", "f", 1, 7⟩, ⟨.IDENTIFIER, "y", "f", 1, 9⟩] 0 =
      .Err ⟨"Expected IDENTIFIER but got LET", "f", 1, 1⟩ :=
  rfl

/-- Claim C8: the claim states that `parse` fails with a positioned syntax
diagnostic on every bad input, and in particular on the empty string.  The
code violates the "in particular" part: the empty string lexes to an empty
token list, and the first `TokenType.expect` then evaluates `tokens[pos-1]`
= `tokens[-1]` on an empty list, raising an uncaught `IndexError` instead
of producing a diagnostic. -/
theorem c8_parse_empty_crashes :
    parse "" = .indexError ∧ tokenize "<stdin>" "" = some [] :=
  ⟨rfl, rfl⟩

/-- Claim C9: parsing `"x."` fails with a syntax diagnostic at line 1
column 2 — the position of the token after the consumed prefix, which is
also the position this code reports for end-of-input (EOF errors borrow
the last token's position) — and the message names the expected token kind
(`EOF`): the diagnostic is `Expected EOF but got DOT`.  The second
conjunct shows the token stream: the dot, the last token, sits at 1:2. -/
theorem c9_dangling_dot_diagnostic :
    parse "x." = .syntaxError "Expected EOF but got DOT" "<stdin>" 1 2 ∧
    tokenize "<stdin>" "x." =
      some [⟨.IDENTIFIER, "x", "<stdin>", 1, 1⟩, ⟨.DOT, ".", "<stdin>", 1, 2⟩] :=
  ⟨rfl, rfl⟩

/-- Claim C10: `eval` is idempotent: every value `eval` returns is a fixed
point of `eval` — in fact exactly (with the same positions), which is
stronger than the claim's "structurally equal ignoring source positions"
(the second conjunct restates the fixed point through `Expr.strip`). -/
theorem c10_eval_idempotent :
    ∀ (n : Nat) (e r : Expr), evalF n e = some r →
      ∃ m, evalF m r = some r ∧ Expr.strip <$> evalF m r = some r.strip := by
  intro n e r h
  obtain ⟨m, hm⟩ := isNF_evalF_fix r (evalF_isNF n e r h)
  exact ⟨m, hm, by rw [hm]; rfl⟩

/-- Witness for C10 on `eval (f a)` (the evaluation of a parenthesized
stuck application). -/
theorem c10_eval_idempotent_witness :
    ∃ m, evalF m (Expr.app "w" 1 1 (.ident ⟨"w", 1, 1, "f"⟩) (.ident ⟨"w", 1, 3, "a"⟩)) =
        some (Expr.app "w" 1 1 (.ident ⟨"w", 1, 1, "f"⟩) (.ident ⟨"w", 1, 3, "a"⟩)) ∧
      Expr.strip <$>
          evalF m (Expr.app "w" 1 1 (.ident ⟨"w", 1, 1, "f"⟩) (.ident ⟨"w", 1, 3, "a"⟩)) =
        some (Expr.app "w" 1 1 (.ident ⟨"w", 1, 1, "f"⟩) (.ident ⟨"w", 1, 3, "a"⟩)).strip :=
  c10_eval_idempotent 3
    (.paren "w" 1 0 (.app "w" 1 1 (.ident ⟨"w", 1, 1, "f"⟩) (.ident ⟨"w", 1, 3, "a"⟩)))
    (.app "w" 1 1 (.ident ⟨"w", 1, 1, "f"⟩) (.ident ⟨"w", 1, 3, "a"⟩)) rfl

end Untyped
